import Mathlib

/-! RemoteBitService: the byte channel of `RemoteBitService.cpp`

`RemoteBitService.cpp` holds two copies of the service, selected by the
`MICROBIT_CODAL` switch.  Both are embedded here, in the namespaces `CODAL`
(lines 9-74) and `DAL` (lines 80-157), as pure functions on a record of the
members the code reads and writes.

Conventions of the embedding

* a byte is a `Nat`; the code only moves bytes, it never computes with them;
* a `uint8_t *` argument is the list of bytes the pointer addresses;
* `receivedBytes` is a `uint8_t`: the assignment from the 16-bit `params->len`
  is `% 256`;
* `rxBuffer`, `txBuffer` and `receivedBytes` are declared one after the other
  (`RemoteBitService.h` lines 52-56 and 116-120).  `memcpy(&rxBuffer, ..)` is
  given a length that the code does not compare with the size of `rxBuffer`, so
  the copy is modelled on the bytes of these three members in declaration
  order (`members`); bytes beyond `receivedBytes` belong to other members and
  are not tracked;
* everything the service asks of its host (a notification, an event) is
  returned next to the new state.
-/

namespace RemoteBit

/-! ## Constants of `RemoteBitService.h` -/

/-- The event source id, `RemoteBitService.h` line 9. -/
abbrev MICROBIT_ID_REMOTEBIT : Nat := 2300

/-- The event value, `RemoteBitService.h` line 10. -/
abbrev MICROBIT_REMOTEBIT_EVT_RX : Nat := 60

/-- The size of both buffers, `RemoteBitService.h` line 12. -/
abbrev REMOTEBIT_DATA_LENGTH : Nat := 20

/-! ## What the host is asked to do -/

/-- The construction `MicroBitEvent(source, value)`: one event raised on the bus. -/
structure MicroBitEvent where
  source : Nat
  value : Nat
deriving DecidableEq, Repr

/-- One call of the notify primitive: the characteristic addressed (an index
in the CODAL build, a handle in the other), the `len` bytes found at the
pointer passed, and `len`. -/
structure Notification where
  chr : Nat
  value : List Nat
  len : Nat
deriving DecidableEq, Repr

/-! ## Memory -/

/-- The call `memcpy(dst, src, n)`: byte `i` of `src` replaces byte `i` of `dst`
for every `i < n`.  Both lists are the bytes that the model tracks at the two
addresses; the copy stops where either of them ends. -/
def memcpy : List Nat → List Nat → Nat → List Nat
  | _ :: ds, s :: ss, n + 1 => s :: memcpy ds ss n
  | ds, _, _ => ds

/-- The bytes of the object from `&rxBuffer` on: `rxBuffer[20]`, `txBuffer[20]`,
`receivedBytes`, in the order of their declaration. -/
def members (rxBuffer txBuffer : List Nat) (receivedBytes : Nat) : List Nat :=
  rxBuffer ++ txBuffer ++ [receivedBytes]

/-- The member `rxBuffer` read back from the bytes of the object. -/
def rxOf (m : List Nat) : List Nat :=
  m.take REMOTEBIT_DATA_LENGTH

/-- The member `txBuffer` read back from the bytes of the object. -/
def txOf (m : List Nat) : List Nat :=
  (m.drop REMOTEBIT_DATA_LENGTH).take REMOTEBIT_DATA_LENGTH

/-- The member `receivedBytes` read back from the bytes of the object. -/
def receivedOf (m : List Nat) : Nat :=
  m.getD (2 * REMOTEBIT_DATA_LENGTH) 0

/-! ## Calls and their outcome -/

/-- One call on the service: the two calls of the application and the callback
of the transport.  `connected` is what the host answers when `write` asks
whether a peer is connected. -/
inductive Call where
  | write (connected : Bool) (data : List Nat) (len : Nat)
  | read (data : List Nat)
  | onDataWritten (handle : Nat) (data : List Nat) (len : Nat)
deriving DecidableEq, Repr

/-- What one call produced besides the new state: the notifications requested,
the events raised, the value returned (by `read`) and the destination buffer as
`read` left it. -/
structure Outcome where
  notifications : List Notification
  events : List MicroBitEvent
  returned : Option Nat
  copied : List Nat
deriving DecidableEq, Repr

/-- All events of a run, in order. -/
def eventsOf (os : List Outcome) : List MicroBitEvent :=
  (os.map Outcome.events).flatten

/-- All values returned by `read` in a run, in order. -/
def returnsOf (os : List Outcome) : List Nat :=
  os.filterMap Outcome.returned

/-! ## The `MICROBIT_CODAL` variant -/

namespace CODAL

/-- The enumerators of `mbbs_cIdx`, `RemoteBitService.h` lines 59-64. -/
abbrev mbbs_cIdxRX : Nat := 0

/-- The second enumerator of `mbbs_cIdx`. -/
abbrev mbbs_cIdxTX : Nat := 1

/-- The fields of `microbit_ble_evt_write_t` that the callback reads. -/
structure microbit_ble_evt_write_t where
  handle : Nat
  data : List Nat
  len : Nat
deriving DecidableEq, Repr

/-- The data members of the class (`RemoteBitService.h` lines 52-73); `chars`
keeps the value handle of each characteristic, indexed by `mbbs_cIdx`. -/
structure RemoteBitService where
  rxBuffer : List Nat
  txBuffer : List Nat
  receivedBytes : Nat
  chars : List Nat
deriving DecidableEq, Repr

/-- The state the constructor leaves (lines 20-43): both buffers zeroed, nothing
received; the value handles are the ones the stack handed out. -/
def RemoteBitService.new (chars : List Nat) : RemoteBitService :=
  { rxBuffer := List.replicate REMOTEBIT_DATA_LENGTH 0
    txBuffer := List.replicate REMOTEBIT_DATA_LENGTH 0
    receivedBytes := 0
    chars := chars }

/-- The value handle of characteristic `idx` (inherited `valueHandle`). -/
def valueHandle (s : RemoteBitService) (idx : Nat) : Nat :=
  s.chars.getD idx 0

/-- The method `RemoteBitService::write`, lines 45-53.  `connected` is the answer
of `getConnected()`.  After the clamp `len` is at most the size of `txBuffer`,
so the copy stays inside it. -/
def write (s : RemoteBitService) (connected : Bool) (data : List Nat) (len : Nat) :
    RemoteBitService × List Notification :=
  if connected then
    let len := if len > REMOTEBIT_DATA_LENGTH then REMOTEBIT_DATA_LENGTH else len
    let s1 := { s with txBuffer := memcpy s.txBuffer data len }
    (s1, [{ chr := mbbs_cIdxTX, value := s1.txBuffer.take len, len := len }])
  else
    (s, [])

/-- The method `RemoteBitService::read`, lines 55-61: the new state, the
destination after the copy, and the value returned. -/
def read (s : RemoteBitService) (data : List Nat) : RemoteBitService × List Nat × Nat :=
  let len := s.receivedBytes
  let data1 := memcpy data (members s.rxBuffer s.txBuffer s.receivedBytes) len
  ({ s with receivedBytes := 0 }, data1, len)

/-- The callback `RemoteBitService::onDataWritten`, lines 66-74. -/
def onDataWritten (s : RemoteBitService) (params : microbit_ble_evt_write_t) :
    RemoteBitService × List MicroBitEvent :=
  if params.handle = valueHandle s mbbs_cIdxRX ∧ params.len > 0 then
    let receivedBytes := params.len % 256
    let m := memcpy (members s.rxBuffer s.txBuffer receivedBytes) params.data params.len
    ({ s with rxBuffer := rxOf m, txBuffer := txOf m, receivedBytes := receivedOf m },
      [{ source := MICROBIT_ID_REMOTEBIT, value := MICROBIT_REMOTEBIT_EVT_RX }])
  else
    (s, [])

/-- One call on the service. -/
def step (s : RemoteBitService) : Call → RemoteBitService × Outcome
  | .write connected data len =>
    let r := write s connected data len
    (r.1, { notifications := r.2, events := [], returned := none, copied := [] })
  | .read data =>
    let r := read s data
    (r.1, { notifications := [], events := [], returned := some r.2.2, copied := r.2.1 })
  | .onDataWritten handle data len =>
    let r := onDataWritten s { handle := handle, data := data, len := len }
    (r.1, { notifications := [], events := r.2, returned := none, copied := [] })

/-- A sequence of calls, from left to right. -/
def run (s : RemoteBitService) : List Call → RemoteBitService × List Outcome
  | [] => (s, [])
  | c :: cs =>
    let r := step s c
    let rest := run r.1 cs
    (rest.1, r.2 :: rest.2)

/-- Whether the callback accepts the call: a write to the RX characteristic of
the state at hand with at least one byte. -/
def accepted (s : RemoteBitService) : Call → Bool
  | .onDataWritten handle _ len => decide (handle = valueHandle s mbbs_cIdxRX ∧ len > 0)
  | _ => false

/-- The number of accepted inbound writes in a sequence of calls. -/
def acceptedCount (s : RemoteBitService) : List Call → Nat
  | [] => 0
  | c :: cs => (if accepted s c then 1 else 0) + acceptedCount (step s c).1 cs

/-- The base of the service identifier, line 9. -/
def service_base_uuid : List Nat :=
  [0xec, 0x21, 0x00, 0x00, 0x20, 0x69, 0x30, 0xda, 0xa2, 0x6e, 0x12, 0x73, 0xcb, 0x04, 0x83, 0x49]

/-- The base of both characteristic identifiers, line 13. -/
def char_base_uuid : List Nat :=
  [0xec, 0x21, 0x00, 0x00, 0x20, 0x69, 0x30, 0xda, 0xa2, 0x6e, 0x12, 0x73, 0xcb, 0x04, 0x83, 0x4a]

/-- The short code of the service, line 17. -/
def serviceUUID : Nat := 0xa0c0

/-- The short codes of the characteristics, indexed by `mbbs_cIdx`, line 18. -/
def charUUID : List Nat := [0xbcc1, 0xbcc2]

end CODAL

/-! ## The variant without `MICROBIT_CODAL` -/

namespace DAL

/-- The fields of `GattWriteCallbackParams` that the callback reads. -/
structure GattWriteCallbackParams where
  handle : Nat
  data : List Nat
  len : Nat
deriving DecidableEq, Repr

/-- The data members of the class (`RemoteBitService.h` lines 116-124). -/
structure RemoteBitService where
  rxBuffer : List Nat
  txBuffer : List Nat
  receivedBytes : Nat
  rxCharacteristicHandle : Nat
  txCharacteristicHandle : Nat
deriving DecidableEq, Repr

/-- The state the constructor leaves (lines 82-114): both buffers zeroed,
nothing received; the two handles are what `getValueHandle()` answered. -/
def RemoteBitService.new (rxHandle txHandle : Nat) : RemoteBitService :=
  { rxBuffer := List.replicate REMOTEBIT_DATA_LENGTH 0
    txBuffer := List.replicate REMOTEBIT_DATA_LENGTH 0
    receivedBytes := 0
    rxCharacteristicHandle := rxHandle
    txCharacteristicHandle := txHandle }

/-- The method `RemoteBitService::write`, lines 116-124.  `connected` is the
value of `ble.getGapState().connected`.  After the clamp `len` is at most the
size of `txBuffer`, so the copy stays inside it. -/
def write (s : RemoteBitService) (connected : Bool) (data : List Nat) (len : Nat) :
    RemoteBitService × List Notification :=
  if connected then
    let len := if len > REMOTEBIT_DATA_LENGTH then REMOTEBIT_DATA_LENGTH else len
    let s1 := { s with txBuffer := memcpy s.txBuffer data len }
    (s1, [{ chr := s.txCharacteristicHandle, value := s1.txBuffer.take len, len := len }])
  else
    (s, [])

/-- The method `RemoteBitService::read`, lines 126-132: the new state, the
destination after the copy, and the value returned. -/
def read (s : RemoteBitService) (data : List Nat) : RemoteBitService × List Nat × Nat :=
  let len := s.receivedBytes
  let data1 := memcpy data (members s.rxBuffer s.txBuffer s.receivedBytes) len
  ({ s with receivedBytes := 0 }, data1, len)

/-- The callback `RemoteBitService::onDataWritten`, lines 137-145. -/
def onDataWritten (s : RemoteBitService) (params : GattWriteCallbackParams) :
    RemoteBitService × List MicroBitEvent :=
  if params.handle = s.rxCharacteristicHandle ∧ params.len > 0 then
    let receivedBytes := params.len % 256
    let m := memcpy (members s.rxBuffer s.txBuffer receivedBytes) params.data params.len
    ({ s with rxBuffer := rxOf m, txBuffer := txOf m, receivedBytes := receivedOf m },
      [{ source := MICROBIT_ID_REMOTEBIT, value := MICROBIT_REMOTEBIT_EVT_RX }])
  else
    (s, [])

/-- One call on the service. -/
def step (s : RemoteBitService) : Call → RemoteBitService × Outcome
  | .write connected data len =>
    let r := write s connected data len
    (r.1, { notifications := r.2, events := [], returned := none, copied := [] })
  | .read data =>
    let r := read s data
    (r.1, { notifications := [], events := [], returned := some r.2.2, copied := r.2.1 })
  | .onDataWritten handle data len =>
    let r := onDataWritten s { handle := handle, data := data, len := len }
    (r.1, { notifications := [], events := r.2, returned := none, copied := [] })

/-- A sequence of calls, from left to right. -/
def run (s : RemoteBitService) : List Call → RemoteBitService × List Outcome
  | [] => (s, [])
  | c :: cs =>
    let r := step s c
    let rest := run r.1 cs
    (rest.1, r.2 :: rest.2)

/-- Whether the callback accepts the call: a write to the RX characteristic of
the state at hand with at least one byte. -/
def accepted (s : RemoteBitService) : Call → Bool
  | .onDataWritten handle _ len => decide (handle = s.rxCharacteristicHandle ∧ len > 0)
  | _ => false

/-- The number of accepted inbound writes in a sequence of calls. -/
def acceptedCount (s : RemoteBitService) : List Call → Nat
  | [] => 0
  | c :: cs => (if accepted s c then 1 else 0) + acceptedCount (step s c).1 cs

/-- The service identifier, line 147. -/
def RemoteBitServiceUUID : List Nat :=
  [0xec, 0x21, 0xa0, 0xc0, 0x20, 0x69, 0x30, 0xda, 0xa2, 0x6e, 0x12, 0x73, 0xcb, 0x04, 0x83, 0x49]

/-- The identifier of the RX characteristic, line 151. -/
def RemoteBitRxCharacteristicUUID : List Nat :=
  [0xec, 0x21, 0xbc, 0xc1, 0x20, 0x69, 0x30, 0xda, 0xa2, 0x6e, 0x12, 0x73, 0xcb, 0x04, 0x83, 0x4a]

/-- The identifier of the TX characteristic, line 155. -/
def RemoteBitTxCharacteristicUUID : List Nat :=
  [0xec, 0x21, 0xbc, 0xc2, 0x20, 0x69, 0x30, 0xda, 0xa2, 0x6e, 0x12, 0x73, 0xcb, 0x04, 0x83, 0x4a]

end DAL

/-! ## Notions used by the statements -/

/-- The buffers have the size of their declaration, `uint8_t [REMOTEBIT_DATA_LENGTH]`. -/
def Sized (rxBuffer txBuffer : List Nat) : Prop :=
  rxBuffer.length = REMOTEBIT_DATA_LENGTH ∧ txBuffer.length = REMOTEBIT_DATA_LENGTH

instance (rxBuffer txBuffer : List Nat) : Decidable (Sized rxBuffer txBuffer) := by
  unfold Sized; infer_instance

/-- The two variants hold the same channel: same buffers, same count, and the
same value handle for the RX characteristic. -/
def SameChannel (c : CODAL.RemoteBitService) (d : DAL.RemoteBitService) : Prop :=
  c.rxBuffer = d.rxBuffer ∧ c.txBuffer = d.txBuffer ∧ c.receivedBytes = d.receivedBytes ∧
    CODAL.valueHandle c CODAL.mbbs_cIdxRX = d.rxCharacteristicHandle

instance (c : CODAL.RemoteBitService) (d : DAL.RemoteBitService) : Decidable (SameChannel c d) := by
  unfold SameChannel; infer_instance

/-- The length and the payload of the notifications requested. -/
def payloads (ns : List Notification) : List (Nat × List Nat) :=
  ns.map (fun n => (n.len, n.value))

/-- A write that the transport delivers to the RX characteristic, the one whose
value handle is `rx`, carries no more bytes than that characteristic declares
(`sizeof(rxBuffer)`, lines 36 and 86).  Writes to any other handle are not
bounded: the callback ignores them (lines 68 and 139). -/
def Call.withinDeclared (rx : Nat) : Call → Prop
  | .onDataWritten handle _ len => handle = rx → len ≤ REMOTEBIT_DATA_LENGTH
  | _ => True

instance (rx : Nat) (c : Call) : Decidable (c.withinDeclared rx) := by
  cases c <;> unfold Call.withinDeclared <;> infer_instance

/-- Every delivery to the RX characteristic, of value handle `rx`, in a sequence
of calls stays within the declared size. -/
def WithinDeclared (rx : Nat) (cs : List Call) : Prop :=
  ∀ c ∈ cs, c.withinDeclared rx

instance (rx : Nat) (cs : List Call) : Decidable (WithinDeclared rx cs) := by
  unfold WithinDeclared; infer_instance

/-- What a call shows to the outside: length and payload of the notifications,
the events, the value returned and the destination as it was left. -/
def observable (o : Outcome) : List (Nat × List Nat) × List MicroBitEvent × Option Nat × List Nat :=
  (payloads o.notifications, o.events, o.returned, o.copied)

/-- Modelled from the spec: the identifier of a service or characteristic is
the 16-byte base with the 2-byte short code written big-endian into bytes 2 and
3.  The combination itself is done by the BLE library behind `RegisterBaseUUID`,
`CreateService` and `CreateCharacteristic`, which is not part of this
repository. -/
def withShortCode (base : List Nat) (code : Nat) : List Nat :=
  (base.set 2 (code / 256 % 256)).set 3 (code % 256)

/-! ## Lemmas on `memcpy` -/

theorem memcpy_zero (d s : List Nat) : memcpy d s 0 = d := by
  cases d <;> cases s <;> simp [memcpy]

theorem memcpy_length (d s : List Nat) (n : Nat) : (memcpy d s n).length = d.length := by
  induction d generalizing s n with
  | nil => simp [memcpy]
  | cons x xs ih =>
    cases s with
    | nil => simp [memcpy]
    | cons y ys =>
      cases n with
      | zero => simp [memcpy]
      | succ k => simp [memcpy, ih]

theorem memcpy_eq_take_drop (d s : List Nat) (n : Nat) (hs : n ≤ s.length) (hd : n ≤ d.length) :
    memcpy d s n = s.take n ++ d.drop n := by
  induction n generalizing d s with
  | zero => simp [memcpy_zero]
  | succ k ih =>
    cases d with
    | nil => simp at hd
    | cons x xs =>
      cases s with
      | nil => simp at hs
      | cons y ys =>
        simp only [List.length_cons, Nat.add_le_add_iff_right] at hs hd
        simp [memcpy, ih xs ys hs hd]

theorem memcpy_append (d r s : List Nat) (n : Nat) (hd : n ≤ d.length) :
    memcpy (d ++ r) s n = memcpy d s n ++ r := by
  induction n generalizing d s with
  | zero => simp [memcpy_zero]
  | succ k ih =>
    cases d with
    | nil => simp at hd
    | cons x xs =>
      cases s with
      | nil => simp [memcpy]
      | cons y ys =>
        simp only [List.length_cons, Nat.add_le_add_iff_right] at hd
        simp [memcpy, ih xs ys hd]

theorem members_store (rx tx src : List Nat) (rb n : Nat) (h : Sized rx tx)
    (hn : n ≤ REMOTEBIT_DATA_LENGTH) :
    rxOf (memcpy (members rx tx rb) src n) = memcpy rx src n ∧
      txOf (memcpy (members rx tx rb) src n) = tx ∧
      receivedOf (memcpy (members rx tx rb) src n) = rb := by
  have hrx : rx.length = 20 := h.1
  have htx : tx.length = 20 := h.2
  have hn20 : n ≤ 20 := hn
  have hlen : (memcpy rx src n).length = 20 := by rw [memcpy_length]; exact hrx
  have hm : memcpy (members rx tx rb) src n = memcpy rx src n ++ (tx ++ [rb]) := by
    unfold members
    rw [List.append_assoc, memcpy_append _ _ _ _ (by omega)]
  rw [hm]
  refine ⟨?_, ?_, ?_⟩
  · unfold rxOf
    exact List.take_left' hlen
  · unfold txOf
    rw [List.drop_left' hlen]
    exact List.take_left' htx
  · show (memcpy rx src n ++ (tx ++ [rb])).getD 40 0 = rb
    rw [List.getD_eq_getElem?_getD, List.getElem?_append_right (by omega),
      List.getElem?_append_right (by omega)]
    simp [hlen, htx]

theorem memcpy_members_take (dst rx tx : List Nat) (rb k : Nat)
    (hk : k ≤ rx.length) (hd : k ≤ dst.length) :
    memcpy dst (members rx tx rb) k = rx.take k ++ dst.drop k := by
  have hs : k ≤ (members rx tx rb).length := by simp [members]; omega
  rw [memcpy_eq_take_drop _ _ _ hs hd]
  unfold members
  rw [List.append_assoc, List.take_append_of_le_length hk]

theorem memcpy_take (d s : List Nat) (n : Nat) (hs : n ≤ s.length) (hd : n ≤ d.length) :
    (memcpy d s n).take n = s.take n := by
  rw [memcpy_eq_take_drop d s n hs hd]
  exact List.take_left' (by simp; omega)

theorem sized_memcpy_rx (rx tx src : List Nat) (n : Nat) (h : Sized rx tx) :
    Sized (memcpy rx src n) tx :=
  ⟨by rw [memcpy_length]; exact h.1, h.2⟩

theorem sized_memcpy_tx (rx tx src : List Nat) (n : Nat) (h : Sized rx tx) :
    Sized rx (memcpy tx src n) :=
  ⟨h.1, by rw [memcpy_length]; exact h.2⟩

theorem clamp_eq_min (len : Nat) :
    (if len > REMOTEBIT_DATA_LENGTH then REMOTEBIT_DATA_LENGTH else len) = min len 20 := by
  split <;> rename_i h <;> simp only [REMOTEBIT_DATA_LENGTH] at h ⊢ <;> omega

/-! ## Lemmas on the `MICROBIT_CODAL` variant -/

namespace CODAL

theorem codal_onDataWritten_within (s : RemoteBitService) (data : List Nat) (n : Nat)
    (hs : Sized s.rxBuffer s.txBuffer) (h0 : 0 < n) (h20 : n ≤ REMOTEBIT_DATA_LENGTH) :
    onDataWritten s { handle := valueHandle s mbbs_cIdxRX, data := data, len := n } =
      ({ s with rxBuffer := memcpy s.rxBuffer data n, receivedBytes := n },
        [{ source := MICROBIT_ID_REMOTEBIT, value := MICROBIT_REMOTEBIT_EVT_RX }]) := by
  have hmod : n % 256 = n := Nat.mod_eq_of_lt (by have : n ≤ 20 := h20; omega)
  obtain ⟨h1, h2, h3⟩ := members_store s.rxBuffer s.txBuffer data n n hs h20
  simp only [onDataWritten, gt_iff_lt, h0, and_self, if_true, hmod, h1, h2, h3]

theorem codal_read_within (s : RemoteBitService) (dest : List Nat)
    (hs : Sized s.rxBuffer s.txBuffer) (hk : s.receivedBytes ≤ REMOTEBIT_DATA_LENGTH)
    (hd : s.receivedBytes ≤ dest.length) :
    read s dest = ({ s with receivedBytes := 0 },
      s.rxBuffer.take s.receivedBytes ++ dest.drop s.receivedBytes, s.receivedBytes) := by
  have hrx : s.receivedBytes ≤ s.rxBuffer.length := by rw [hs.1]; exact hk
  simp only [read, memcpy_members_take _ _ _ _ _ hrx hd]

theorem codal_deliver_read (s : RemoteBitService) (data dest : List Nat) (n : Nat)
    (hs : Sized s.rxBuffer s.txBuffer) (h0 : 0 < n) (h20 : n ≤ REMOTEBIT_DATA_LENGTH)
    (hdata : n ≤ data.length) (hdest : n ≤ dest.length) :
    read (onDataWritten s { handle := valueHandle s mbbs_cIdxRX, data := data, len := n }).1 dest =
      ({ s with rxBuffer := memcpy s.rxBuffer data n, receivedBytes := 0 },
        data.take n ++ dest.drop n, n) := by
  rw [codal_onDataWritten_within s data n hs h0 h20]
  rw [codal_read_within _ dest (sized_memcpy_rx _ _ data n hs) h20 hdest]
  have hrx : n ≤ s.rxBuffer.length := by rw [hs.1]; exact h20
  simp only [memcpy_take _ _ _ hdata hrx]

theorem codal_read_twice (s : RemoteBitService) (dest dest2 : List Nat) :
    (read (read s dest).1 dest2).2 = (dest2, 0) := by
  simp [read, memcpy_zero]

/-- The declared sizes, the bound on the count and the RX value handle, kept by
every call whose delivery to the RX characteristic stays within its declared
size. -/
theorem codal_step_inv (s : RemoteBitService) (c : Call)
    (hc : c.withinDeclared (valueHandle s mbbs_cIdxRX))
    (hs : Sized s.rxBuffer s.txBuffer) (hk : s.receivedBytes ≤ REMOTEBIT_DATA_LENGTH) :
    Sized (step s c).1.rxBuffer (step s c).1.txBuffer ∧
      (step s c).1.receivedBytes ≤ REMOTEBIT_DATA_LENGTH ∧
      (∀ v, (step s c).2.returned = some v → v ≤ REMOTEBIT_DATA_LENGTH) ∧
      valueHandle (step s c).1 mbbs_cIdxRX = valueHandle s mbbs_cIdxRX := by
  cases c with
  | write connected data len =>
    cases connected
    · exact ⟨hs, hk, by simp [step], rfl⟩
    · exact ⟨sized_memcpy_tx _ _ _ _ hs, hk, by simp [step], rfl⟩
  | read data =>
    refine ⟨hs, Nat.zero_le _, ?_, rfl⟩
    intro v hv
    simp only [step, read, Option.some.injEq] at hv
    rw [← hv]; exact hk
  | onDataWritten handle data len =>
    by_cases hacc : handle = valueHandle s mbbs_cIdxRX ∧ len > 0
    · obtain ⟨hh, h0⟩ := hacc
      have hlen : len ≤ REMOTEBIT_DATA_LENGTH := hc hh
      subst hh
      simp only [step, codal_onDataWritten_within s data len hs h0 hlen]
      exact ⟨sized_memcpy_rx _ _ _ _ hs, hlen, by simp, rfl⟩
    · simp only [step, onDataWritten, hacc, if_false]
      exact ⟨hs, hk, by simp, trivial⟩

theorem codal_run_inv (cs : List Call) (s : RemoteBitService)
    (hcs : WithinDeclared (valueHandle s mbbs_cIdxRX) cs)
    (hs : Sized s.rxBuffer s.txBuffer) (hk : s.receivedBytes ≤ REMOTEBIT_DATA_LENGTH) :
    Sized (run s cs).1.rxBuffer (run s cs).1.txBuffer ∧
      (run s cs).1.receivedBytes ≤ REMOTEBIT_DATA_LENGTH ∧
      ∀ v ∈ returnsOf (run s cs).2, v ≤ REMOTEBIT_DATA_LENGTH := by
  induction cs generalizing s with
  | nil => exact ⟨hs, hk, by simp [run, returnsOf]⟩
  | cons c cs ih =>
    obtain ⟨h1, h2, h3, h4⟩ := codal_step_inv s c (hcs c (List.mem_cons_self _ _)) hs hk
    have hrest : WithinDeclared (valueHandle (step s c).1 mbbs_cIdxRX) cs := by
      rw [h4]
      exact fun x hx => hcs x (List.mem_cons_of_mem _ hx)
    obtain ⟨i1, i2, i3⟩ := ih (step s c).1 hrest h1 h2
    refine ⟨i1, i2, ?_⟩
    intro v hv
    simp only [run, returnsOf, List.filterMap_cons] at hv
    cases hr : (step s c).2.returned with
    | none =>
      rw [hr] at hv
      exact i3 v hv
    | some w =>
      rw [hr] at hv
      rcases List.mem_cons.mp hv with h | h
      · rw [h]; exact h3 w hr
      · exact i3 v h

theorem codal_step_events (s : RemoteBitService) (c : Call) :
    (step s c).2.events =
      List.replicate (if accepted s c then 1 else 0)
        { source := MICROBIT_ID_REMOTEBIT, value := MICROBIT_REMOTEBIT_EVT_RX } := by
  cases c with
  | write connected data len => simp [step, accepted]
  | read data => simp [step, accepted]
  | onDataWritten handle data len =>
    by_cases hacc : handle = valueHandle s mbbs_cIdxRX ∧ len > 0
    · simp [step, accepted, onDataWritten, hacc]
    · simp [step, accepted, onDataWritten, hacc]

theorem codal_run_events (cs : List Call) (s : RemoteBitService) :
    eventsOf (run s cs).2 =
      List.replicate (acceptedCount s cs)
        { source := MICROBIT_ID_REMOTEBIT, value := MICROBIT_REMOTEBIT_EVT_RX } := by
  induction cs generalizing s with
  | nil => simp [run, eventsOf, acceptedCount]
  | cons c cs ih =>
    have h := ih (step s c).1
    simp only [eventsOf] at h
    simp only [run, eventsOf, acceptedCount, List.map_cons, List.flatten_cons, h, codal_step_events,
      List.replicate_add]

theorem codal_write_connected (s : RemoteBitService) (data : List Nat) (len : Nat) :
    write s true data len =
      ({ s with txBuffer := memcpy s.txBuffer data (min len 20) },
        [{ chr := mbbs_cIdxTX, value := (memcpy s.txBuffer data (min len 20)).take (min len 20),
           len := min len 20 }]) := by
  simp only [write, if_true, clamp_eq_min]

theorem codal_write_connected_sized (s : RemoteBitService) (data : List Nat) (len : Nat)
    (hs : Sized s.rxBuffer s.txBuffer) (hdata : len ≤ data.length) :
    (write s true data len).2 =
      [{ chr := mbbs_cIdxTX, value := data.take (min len 20), len := min len 20 }] := by
  have htx : min len 20 ≤ s.txBuffer.length := by rw [hs.2]; exact Nat.min_le_right _ _
  have hsrc : min len 20 ≤ data.length := Nat.le_trans (Nat.min_le_left _ _) hdata
  rw [codal_write_connected, memcpy_take _ _ _ hsrc htx]

theorem codal_deliver_deliver_read (s : RemoteBitService) (m1 m2 dest : List Nat) (n1 n2 : Nat)
    (hs : Sized s.rxBuffer s.txBuffer) (h1 : 0 < n1) (h1b : n1 ≤ REMOTEBIT_DATA_LENGTH)
    (h2 : 0 < n2) (h2b : n2 ≤ REMOTEBIT_DATA_LENGTH)
    (hm2 : n2 ≤ m2.length) (hdest : n2 ≤ dest.length) :
    (read (onDataWritten
        (onDataWritten s { handle := valueHandle s mbbs_cIdxRX, data := m1, len := n1 }).1
        { handle := valueHandle s mbbs_cIdxRX, data := m2, len := n2 }).1 dest).2 =
      (m2.take n2 ++ dest.drop n2, n2) := by
  rw [codal_onDataWritten_within s m1 n1 hs h1 h1b]
  have h := codal_deliver_read { s with rxBuffer := memcpy s.rxBuffer m1 n1, receivedBytes := n1 }
    m2 dest n2 (sized_memcpy_rx _ _ m1 n1 hs) h2 h2b hm2 hdest
  exact congrArg Prod.snd h

end CODAL

/-! ## Lemmas on the variant without `MICROBIT_CODAL` -/

namespace DAL

theorem dal_onDataWritten_within (s : RemoteBitService) (data : List Nat) (n : Nat)
    (hs : Sized s.rxBuffer s.txBuffer) (h0 : 0 < n) (h20 : n ≤ REMOTEBIT_DATA_LENGTH) :
    onDataWritten s { handle := s.rxCharacteristicHandle, data := data, len := n } =
      ({ s with rxBuffer := memcpy s.rxBuffer data n, receivedBytes := n },
        [{ source := MICROBIT_ID_REMOTEBIT, value := MICROBIT_REMOTEBIT_EVT_RX }]) := by
  have hmod : n % 256 = n := Nat.mod_eq_of_lt (by have : n ≤ 20 := h20; omega)
  obtain ⟨h1, h2, h3⟩ := members_store s.rxBuffer s.txBuffer data n n hs h20
  simp only [onDataWritten, gt_iff_lt, h0, and_self, if_true, hmod, h1, h2, h3]

theorem dal_read_within (s : RemoteBitService) (dest : List Nat)
    (hs : Sized s.rxBuffer s.txBuffer) (hk : s.receivedBytes ≤ REMOTEBIT_DATA_LENGTH)
    (hd : s.receivedBytes ≤ dest.length) :
    read s dest = ({ s with receivedBytes := 0 },
      s.rxBuffer.take s.receivedBytes ++ dest.drop s.receivedBytes, s.receivedBytes) := by
  have hrx : s.receivedBytes ≤ s.rxBuffer.length := by rw [hs.1]; exact hk
  simp only [read, memcpy_members_take _ _ _ _ _ hrx hd]

theorem dal_deliver_read (s : RemoteBitService) (data dest : List Nat) (n : Nat)
    (hs : Sized s.rxBuffer s.txBuffer) (h0 : 0 < n) (h20 : n ≤ REMOTEBIT_DATA_LENGTH)
    (hdata : n ≤ data.length) (hdest : n ≤ dest.length) :
    read (onDataWritten s { handle := s.rxCharacteristicHandle, data := data, len := n }).1 dest =
      ({ s with rxBuffer := memcpy s.rxBuffer data n, receivedBytes := 0 },
        data.take n ++ dest.drop n, n) := by
  rw [dal_onDataWritten_within s data n hs h0 h20]
  rw [dal_read_within _ dest (sized_memcpy_rx _ _ data n hs) h20 hdest]
  have hrx : n ≤ s.rxBuffer.length := by rw [hs.1]; exact h20
  simp only [memcpy_take _ _ _ hdata hrx]

theorem dal_read_twice (s : RemoteBitService) (dest dest2 : List Nat) :
    (read (read s dest).1 dest2).2 = (dest2, 0) := by
  simp [read, memcpy_zero]

/-- The declared sizes, the bound on the count and the RX value handle, kept by
every call whose delivery to the RX characteristic stays within its declared
size. -/
theorem dal_step_inv (s : RemoteBitService) (c : Call)
    (hc : c.withinDeclared (s.rxCharacteristicHandle))
    (hs : Sized s.rxBuffer s.txBuffer) (hk : s.receivedBytes ≤ REMOTEBIT_DATA_LENGTH) :
    Sized (step s c).1.rxBuffer (step s c).1.txBuffer ∧
      (step s c).1.receivedBytes ≤ REMOTEBIT_DATA_LENGTH ∧
      (∀ v, (step s c).2.returned = some v → v ≤ REMOTEBIT_DATA_LENGTH) ∧
      (step s c).1.rxCharacteristicHandle = s.rxCharacteristicHandle := by
  cases c with
  | write connected data len =>
    cases connected
    · exact ⟨hs, hk, by simp [step], rfl⟩
    · exact ⟨sized_memcpy_tx _ _ _ _ hs, hk, by simp [step], rfl⟩
  | read data =>
    refine ⟨hs, Nat.zero_le _, ?_, rfl⟩
    intro v hv
    simp only [step, read, Option.some.injEq] at hv
    rw [← hv]; exact hk
  | onDataWritten handle data len =>
    by_cases hacc : handle = s.rxCharacteristicHandle ∧ len > 0
    · obtain ⟨hh, h0⟩ := hacc
      have hlen : len ≤ REMOTEBIT_DATA_LENGTH := hc hh
      subst hh
      simp only [step, dal_onDataWritten_within s data len hs h0 hlen]
      exact ⟨sized_memcpy_rx _ _ _ _ hs, hlen, by simp, trivial⟩
    · simp only [step, onDataWritten, hacc, if_false]
      exact ⟨hs, hk, by simp, trivial⟩

theorem dal_run_inv (cs : List Call) (s : RemoteBitService)
    (hcs : WithinDeclared (s.rxCharacteristicHandle) cs)
    (hs : Sized s.rxBuffer s.txBuffer) (hk : s.receivedBytes ≤ REMOTEBIT_DATA_LENGTH) :
    Sized (run s cs).1.rxBuffer (run s cs).1.txBuffer ∧
      (run s cs).1.receivedBytes ≤ REMOTEBIT_DATA_LENGTH ∧
      ∀ v ∈ returnsOf (run s cs).2, v ≤ REMOTEBIT_DATA_LENGTH := by
  induction cs generalizing s with
  | nil => exact ⟨hs, hk, by simp [run, returnsOf]⟩
  | cons c cs ih =>
    obtain ⟨h1, h2, h3, h4⟩ := dal_step_inv s c (hcs c (List.mem_cons_self _ _)) hs hk
    have hrest : WithinDeclared ((step s c).1.rxCharacteristicHandle) cs := by
      rw [h4]
      exact fun x hx => hcs x (List.mem_cons_of_mem _ hx)
    obtain ⟨i1, i2, i3⟩ := ih (step s c).1 hrest h1 h2
    refine ⟨i1, i2, ?_⟩
    intro v hv
    simp only [run, returnsOf, List.filterMap_cons] at hv
    cases hr : (step s c).2.returned with
    | none =>
      rw [hr] at hv
      exact i3 v hv
    | some w =>
      rw [hr] at hv
      rcases List.mem_cons.mp hv with h | h
      · rw [h]; exact h3 w hr
      · exact i3 v h

theorem dal_step_events (s : RemoteBitService) (c : Call) :
    (step s c).2.events =
      List.replicate (if accepted s c then 1 else 0)
        { source := MICROBIT_ID_REMOTEBIT, value := MICROBIT_REMOTEBIT_EVT_RX } := by
  cases c with
  | write connected data len => simp [step, accepted]
  | read data => simp [step, accepted]
  | onDataWritten handle data len =>
    by_cases hacc : handle = s.rxCharacteristicHandle ∧ len > 0
    · simp [step, accepted, onDataWritten, hacc]
    · simp [step, accepted, onDataWritten, hacc]

theorem dal_run_events (cs : List Call) (s : RemoteBitService) :
    eventsOf (run s cs).2 =
      List.replicate (acceptedCount s cs)
        { source := MICROBIT_ID_REMOTEBIT, value := MICROBIT_REMOTEBIT_EVT_RX } := by
  induction cs generalizing s with
  | nil => simp [run, eventsOf, acceptedCount]
  | cons c cs ih =>
    have h := ih (step s c).1
    simp only [eventsOf] at h
    simp only [run, eventsOf, acceptedCount, List.map_cons, List.flatten_cons, h, dal_step_events,
      List.replicate_add]

theorem dal_write_connected (s : RemoteBitService) (data : List Nat) (len : Nat) :
    write s true data len =
      ({ s with txBuffer := memcpy s.txBuffer data (min len 20) },
        [{ chr := s.txCharacteristicHandle, value := (memcpy s.txBuffer data (min len 20)).take (min len 20),
           len := min len 20 }]) := by
  simp only [write, if_true, clamp_eq_min]

theorem dal_write_connected_sized (s : RemoteBitService) (data : List Nat) (len : Nat)
    (hs : Sized s.rxBuffer s.txBuffer) (hdata : len ≤ data.length) :
    (write s true data len).2 =
      [{ chr := s.txCharacteristicHandle, value := data.take (min len 20), len := min len 20 }] := by
  have htx : min len 20 ≤ s.txBuffer.length := by rw [hs.2]; exact Nat.min_le_right _ _
  have hsrc : min len 20 ≤ data.length := Nat.le_trans (Nat.min_le_left _ _) hdata
  rw [dal_write_connected, memcpy_take _ _ _ hsrc htx]

theorem dal_deliver_deliver_read (s : RemoteBitService) (m1 m2 dest : List Nat) (n1 n2 : Nat)
    (hs : Sized s.rxBuffer s.txBuffer) (h1 : 0 < n1) (h1b : n1 ≤ REMOTEBIT_DATA_LENGTH)
    (h2 : 0 < n2) (h2b : n2 ≤ REMOTEBIT_DATA_LENGTH)
    (hm2 : n2 ≤ m2.length) (hdest : n2 ≤ dest.length) :
    (read (onDataWritten
        (onDataWritten s { handle := s.rxCharacteristicHandle, data := m1, len := n1 }).1
        { handle := s.rxCharacteristicHandle, data := m2, len := n2 }).1 dest).2 =
      (m2.take n2 ++ dest.drop n2, n2) := by
  rw [dal_onDataWritten_within s m1 n1 hs h1 h1b]
  have h := dal_deliver_read { s with rxBuffer := memcpy s.rxBuffer m1 n1, receivedBytes := n1 }
    m2 dest n2 (sized_memcpy_rx _ _ m1 n1 hs) h2 h2b hm2 hdest
  exact congrArg Prod.snd h

end DAL

/-! ## The two variants side by side -/

theorem step_same (c : CODAL.RemoteBitService) (d : DAL.RemoteBitService) (call : Call)
    (h : SameChannel c d) :
    SameChannel (CODAL.step c call).1 (DAL.step d call).1 ∧
      observable (CODAL.step c call).2 = observable (DAL.step d call).2 := by
  obtain ⟨rx, tx, rb, chars⟩ := c
  obtain ⟨rx2, tx2, rb2, rxh, txh⟩ := d
  obtain ⟨hrx, htx, hrb, hh⟩ := h
  simp only at hrx htx hrb hh
  subst hrx htx hrb hh
  cases call with
  | write connected data len =>
    cases connected
    · exact ⟨⟨rfl, rfl, rfl, rfl⟩, rfl⟩
    · exact ⟨⟨rfl, rfl, rfl, rfl⟩, rfl⟩
  | read data => exact ⟨⟨rfl, rfl, rfl, rfl⟩, rfl⟩
  | onDataWritten handle data len =>
    by_cases hacc : handle = CODAL.valueHandle ⟨rx, tx, rb, chars⟩ CODAL.mbbs_cIdxRX ∧ len > 0
    · simp only [CODAL.step, DAL.step, CODAL.onDataWritten, DAL.onDataWritten, if_pos hacc]
      exact ⟨⟨rfl, rfl, rfl, rfl⟩, trivial⟩
    · simp only [CODAL.step, DAL.step, CODAL.onDataWritten, DAL.onDataWritten, if_neg hacc]
      exact ⟨⟨rfl, rfl, rfl, rfl⟩, trivial⟩

theorem run_same (cs : List Call) (c : CODAL.RemoteBitService) (d : DAL.RemoteBitService)
    (h : SameChannel c d) :
    SameChannel (CODAL.run c cs).1 (DAL.run d cs).1 ∧
      (CODAL.run c cs).2.map observable = (DAL.run d cs).2.map observable := by
  induction cs generalizing c d with
  | nil => exact ⟨h, rfl⟩
  | cons call cs ih =>
    obtain ⟨h1, h2⟩ := step_same c d call h
    obtain ⟨i1, i2⟩ := ih (CODAL.step c call).1 (DAL.step d call).1 h1
    refine ⟨i1, ?_⟩
    simp only [CODAL.run, DAL.run, List.map_cons, h2, i2]

/-! ## The claims -/

/-- C1: while a peer is connected, `write(data, len)` with `data` holding at
least `len` bytes requests exactly one notification, on the TX characteristic,
of length `min len 20` and with the first `min len 20` bytes of `data` as
payload; no notification is longer than 20 bytes; 25 bytes `0xAA` are notified
as exactly 20 bytes `0xAA`.  Both variants. -/
theorem C1_write_notifies_clamped (c : CODAL.RemoteBitService) (d : DAL.RemoteBitService)
    (data : List Nat) (len : Nat)
    (hc : Sized c.rxBuffer c.txBuffer) (hd : Sized d.rxBuffer d.txBuffer)
    (hdata : len ≤ data.length) :
    ((CODAL.write c true data len).2 =
        [{ chr := CODAL.mbbs_cIdxTX, value := data.take (min len 20), len := min len 20 }] ∧
      (DAL.write d true data len).2 =
        [{ chr := d.txCharacteristicHandle, value := data.take (min len 20),
           len := min len 20 }]) ∧
    ((∀ n ∈ (CODAL.write c true data len).2, n.len ≤ 20 ∧ n.value.length = n.len) ∧
      (∀ n ∈ (DAL.write d true data len).2, n.len ≤ 20 ∧ n.value.length = n.len)) ∧
    ((CODAL.write c true (List.replicate 25 0xAA) 25).2 =
        [{ chr := CODAL.mbbs_cIdxTX, value := List.replicate 20 0xAA, len := 20 }] ∧
      (DAL.write d true (List.replicate 25 0xAA) 25).2 =
        [{ chr := d.txCharacteristicHandle, value := List.replicate 20 0xAA, len := 20 }]) := by
  have e1 := CODAL.codal_write_connected_sized c data len hc hdata
  have e2 := DAL.dal_write_connected_sized d data len hd hdata
  have hmin : min len 20 ≤ data.length := Nat.le_trans (Nat.min_le_left _ _) hdata
  have e3 := CODAL.codal_write_connected_sized c (List.replicate 25 0xAA) 25 hc (by simp)
  have e4 := DAL.dal_write_connected_sized d (List.replicate 25 0xAA) 25 hd (by simp)
  refine ⟨⟨e1, e2⟩, ⟨?_, ?_⟩, ⟨?_, ?_⟩⟩
  · intro n hn
    rw [e1, List.mem_singleton] at hn
    subst hn
    exact ⟨Nat.min_le_right _ _, by simp [hmin]⟩
  · intro n hn
    rw [e2, List.mem_singleton] at hn
    subst hn
    exact ⟨Nat.min_le_right _ _, by simp [hmin]⟩
  · rw [e3]; rfl
  · rw [e4]; rfl

/-- C1 at the fresh channels, `write([1, 2, 3], 2)`. -/
theorem C1_write_notifies_clamped_witness :
    (Sized (CODAL.RemoteBitService.new [7, 8]).rxBuffer (CODAL.RemoteBitService.new [7, 8]).txBuffer ∧
      Sized (DAL.RemoteBitService.new 7 8).rxBuffer (DAL.RemoteBitService.new 7 8).txBuffer ∧
      2 ≤ [1, 2, 3].length) ∧
    (CODAL.write (CODAL.RemoteBitService.new [7, 8]) true [1, 2, 3] 2).2 =
      [{ chr := 1, value := [1, 2], len := 2 }] ∧
    (DAL.write (DAL.RemoteBitService.new 7 8) true [1, 2, 3] 2).2 =
      [{ chr := 8, value := [1, 2], len := 2 }] :=
  ⟨by decide,
    (C1_write_notifies_clamped (CODAL.RemoteBitService.new [7, 8]) (DAL.RemoteBitService.new 7 8)
      [1, 2, 3] 2 (by decide) (by decide) (by decide)).1⟩

/-- C2: `write` requests a notification if and only if a peer is connected.
Not connected: no notification, and the whole state, `txBuffer` included, is
returned as it was.  Connected: exactly one notification, for every `len`,
`0` included.  Both variants. -/
theorem C2_write_gated_on_connection (c : CODAL.RemoteBitService) (d : DAL.RemoteBitService)
    (data : List Nat) (len : Nat) :
    (CODAL.write c false data len = (c, []) ∧ DAL.write d false data len = (d, [])) ∧
    ((CODAL.write c true data len).2.length = 1 ∧ (DAL.write d true data len).2.length = 1) ∧
    ((CODAL.write c true data 0).2.length = 1 ∧ (DAL.write d true data 0).2.length = 1) ∧
    (∀ connected : Bool,
      ((CODAL.write c connected data len).2 ≠ [] ↔ connected = true) ∧
      ((DAL.write d connected data len).2 ≠ [] ↔ connected = true)) := by
  refine ⟨⟨rfl, rfl⟩, ⟨?_, ?_⟩, ⟨?_, ?_⟩, ?_⟩
  · rw [CODAL.codal_write_connected]; rfl
  · rw [DAL.dal_write_connected]; rfl
  · rw [CODAL.codal_write_connected]; rfl
  · rw [DAL.dal_write_connected]; rfl
  · intro connected
    cases connected
    · exact ⟨by simp [CODAL.write], by simp [DAL.write]⟩
    · exact ⟨by simp [CODAL.codal_write_connected], by simp [DAL.dal_write_connected]⟩

/-- C3: after a peer write of `n` bytes to the RX characteristic, `0 < n <= 20`,
`read` returns `n` and leaves those `n` bytes in the first `n` positions of the
destination (the rest of the destination as it was), and a second `read` right
after returns `0` and copies nothing.  Both variants. -/
theorem C3_deliver_then_read (c : CODAL.RemoteBitService) (d : DAL.RemoteBitService)
    (data dest dest2 : List Nat) (n : Nat)
    (hc : Sized c.rxBuffer c.txBuffer) (hd : Sized d.rxBuffer d.txBuffer)
    (h0 : 0 < n) (h20 : n ≤ 20) (hdata : n ≤ data.length) (hdest : n ≤ dest.length) :
    ((CODAL.read (CODAL.onDataWritten c
          { handle := CODAL.valueHandle c CODAL.mbbs_cIdxRX, data := data, len := n }).1 dest).2 =
        (data.take n ++ dest.drop n, n) ∧
      (CODAL.read (CODAL.read (CODAL.onDataWritten c
          { handle := CODAL.valueHandle c CODAL.mbbs_cIdxRX, data := data, len := n }).1 dest).1
          dest2).2 = (dest2, 0)) ∧
    ((DAL.read (DAL.onDataWritten d
          { handle := d.rxCharacteristicHandle, data := data, len := n }).1 dest).2 =
        (data.take n ++ dest.drop n, n) ∧
      (DAL.read (DAL.read (DAL.onDataWritten d
          { handle := d.rxCharacteristicHandle, data := data, len := n }).1 dest).1
          dest2).2 = (dest2, 0)) := by
  refine ⟨⟨?_, CODAL.codal_read_twice _ _ _⟩, ⟨?_, DAL.dal_read_twice _ _ _⟩⟩
  · exact congrArg Prod.snd (CODAL.codal_deliver_read c data dest n hc h0 h20 hdata hdest)
  · exact congrArg Prod.snd (DAL.dal_deliver_read d data dest n hd h0 h20 hdata hdest)

/-- C3 at the fresh channels with the message `[0x01, 0x02, 0x03]`, `n = 3`. -/
theorem C3_deliver_then_read_witness :
    (Sized (CODAL.RemoteBitService.new [7, 8]).rxBuffer (CODAL.RemoteBitService.new [7, 8]).txBuffer ∧
      Sized (DAL.RemoteBitService.new 7 8).rxBuffer (DAL.RemoteBitService.new 7 8).txBuffer ∧
      0 < 3 ∧ 3 ≤ 20 ∧ 3 ≤ [0x01, 0x02, 0x03].length ∧ 3 ≤ [0, 0, 0, 0].length) ∧
    (CODAL.read (CODAL.onDataWritten (CODAL.RemoteBitService.new [7, 8])
        { handle := 7, data := [0x01, 0x02, 0x03], len := 3 }).1 [0, 0, 0, 0]).2 =
      ([0x01, 0x02, 0x03, 0], 3) ∧
    (DAL.read (DAL.read (DAL.onDataWritten (DAL.RemoteBitService.new 7 8)
        { handle := 7, data := [0x01, 0x02, 0x03], len := 3 }).1 [0, 0, 0, 0]).1 [9, 9]).2 =
      ([9, 9], 0) :=
  have h := C3_deliver_then_read (CODAL.RemoteBitService.new [7, 8]) (DAL.RemoteBitService.new 7 8)
    [0x01, 0x02, 0x03] [0, 0, 0, 0] [9, 9] 3 (by decide) (by decide) (by decide) (by decide)
    (by decide) (by decide)
  ⟨by decide, h.1.1, h.2.2⟩

/-- C4: last write wins.  After two peer writes to the RX characteristic, `m1`
of `n1` bytes and then `m2` of `n2` bytes (`0 < n1, n2 <= 20`, in either
order of size) with no `read` in between, the next `read` returns `n2` and
the bytes of `m2` before the untouched rest of the destination, so no byte of
`m1` is part of it, and the `read` after that returns `0`.  Both variants. -/
theorem C4_last_write_wins (c : CODAL.RemoteBitService) (d : DAL.RemoteBitService)
    (m1 m2 dest dest2 : List Nat) (n1 n2 : Nat)
    (hc : Sized c.rxBuffer c.txBuffer) (hd : Sized d.rxBuffer d.txBuffer)
    (h1 : 0 < n1) (h1b : n1 ≤ 20) (h2 : 0 < n2) (h2b : n2 ≤ 20)
    (hm2 : n2 ≤ m2.length) (hdest : n2 ≤ dest.length) :
    ((CODAL.read (CODAL.onDataWritten (CODAL.onDataWritten c
          { handle := CODAL.valueHandle c CODAL.mbbs_cIdxRX, data := m1, len := n1 }).1
          { handle := CODAL.valueHandle c CODAL.mbbs_cIdxRX, data := m2, len := n2 }).1 dest).2 =
        (m2.take n2 ++ dest.drop n2, n2) ∧
      (CODAL.read (CODAL.read (CODAL.onDataWritten (CODAL.onDataWritten c
          { handle := CODAL.valueHandle c CODAL.mbbs_cIdxRX, data := m1, len := n1 }).1
          { handle := CODAL.valueHandle c CODAL.mbbs_cIdxRX, data := m2, len := n2 }).1 dest).1
          dest2).2 = (dest2, 0)) ∧
    ((DAL.read (DAL.onDataWritten (DAL.onDataWritten d
          { handle := d.rxCharacteristicHandle, data := m1, len := n1 }).1
          { handle := d.rxCharacteristicHandle, data := m2, len := n2 }).1 dest).2 =
        (m2.take n2 ++ dest.drop n2, n2) ∧
      (DAL.read (DAL.read (DAL.onDataWritten (DAL.onDataWritten d
          { handle := d.rxCharacteristicHandle, data := m1, len := n1 }).1
          { handle := d.rxCharacteristicHandle, data := m2, len := n2 }).1 dest).1
          dest2).2 = (dest2, 0)) :=
  ⟨⟨CODAL.codal_deliver_deliver_read c m1 m2 dest n1 n2 hc h1 h1b h2 h2b hm2 hdest,
      CODAL.codal_read_twice _ _ _⟩,
    ⟨DAL.dal_deliver_deliver_read d m1 m2 dest n1 n2 hd h1 h1b h2 h2b hm2 hdest,
      DAL.dal_read_twice _ _ _⟩⟩

/-- C4 at the fresh channels: five bytes, then two bytes, then `read`. -/
theorem C4_last_write_wins_witness :
    (Sized (CODAL.RemoteBitService.new [7, 8]).rxBuffer (CODAL.RemoteBitService.new [7, 8]).txBuffer ∧
      Sized (DAL.RemoteBitService.new 7 8).rxBuffer (DAL.RemoteBitService.new 7 8).txBuffer ∧
      0 < 5 ∧ 5 ≤ 20 ∧ 0 < 2 ∧ 2 ≤ 20 ∧ 2 ≤ [6, 7].length ∧ 2 ≤ [0, 0, 0, 0, 0, 0].length) ∧
    (CODAL.read (CODAL.onDataWritten (CODAL.onDataWritten (CODAL.RemoteBitService.new [7, 8])
        { handle := 7, data := [1, 2, 3, 4, 5], len := 5 }).1
        { handle := 7, data := [6, 7], len := 2 }).1 [0, 0, 0, 0, 0, 0]).2 =
      ([6, 7, 0, 0, 0, 0], 2) ∧
    (DAL.read (DAL.onDataWritten (DAL.onDataWritten (DAL.RemoteBitService.new 7 8)
        { handle := 7, data := [1, 2, 3, 4, 5], len := 5 }).1
        { handle := 7, data := [6, 7], len := 2 }).1 [0, 0, 0, 0, 0, 0]).2 =
      ([6, 7, 0, 0, 0, 0], 2) :=
  have h := C4_last_write_wins (CODAL.RemoteBitService.new [7, 8]) (DAL.RemoteBitService.new 7 8)
    [1, 2, 3, 4, 5] [6, 7] [0, 0, 0, 0, 0, 0] [] 5 2 (by decide) (by decide) (by decide)
    (by decide) (by decide) (by decide) (by decide) (by decide)
  ⟨by decide, h.1.1, h.2.1⟩

/-- C5, as the claim has it, fails: a delivery of 21 bytes to the RX
characteristic of the fresh channel leaves `receivedBytes = 21`, and the `read`
that follows returns 21.  Both variants. -/
theorem C5_count_unbounded_counterexample :
    (¬ (CODAL.run (CODAL.RemoteBitService.new [7, 8])
          [Call.onDataWritten 7 (List.replicate 21 1) 21]).1.receivedBytes ≤ 20 ∧
      returnsOf (CODAL.run (CODAL.RemoteBitService.new [7, 8])
          [Call.onDataWritten 7 (List.replicate 21 1) 21, Call.read (List.replicate 21 0)]).2 =
        [21]) ∧
    (¬ (DAL.run (DAL.RemoteBitService.new 7 8)
          [Call.onDataWritten 7 (List.replicate 21 1) 21]).1.receivedBytes ≤ 20 ∧
      returnsOf (DAL.run (DAL.RemoteBitService.new 7 8)
          [Call.onDataWritten 7 (List.replicate 21 1) 21, Call.read (List.replicate 21 0)]).2 =
        [21]) := by
  decide

/-- C5, amended: in every state reached from the freshly constructed channel by
a sequence of `write`, `read` and `onDataWritten` calls in which every write
that the transport delivers to the RX characteristic has at most 20 bytes (its
declared size; writes to other handles may have any length),
`receivedBytes <= 20`, and every `read` of the sequence returned a value in
`0..20`.  Both variants. -/
theorem C5_count_bounded_within_declared (cs : List Call) (chars : List Nat)
    (rxHandle txHandle : Nat) :
    (WithinDeclared (CODAL.valueHandle (CODAL.RemoteBitService.new chars) CODAL.mbbs_cIdxRX) cs →
      (CODAL.run (CODAL.RemoteBitService.new chars) cs).1.receivedBytes ≤ 20 ∧
      ∀ v ∈ returnsOf (CODAL.run (CODAL.RemoteBitService.new chars) cs).2, v ≤ 20) ∧
    (WithinDeclared rxHandle cs →
      (DAL.run (DAL.RemoteBitService.new rxHandle txHandle) cs).1.receivedBytes ≤ 20 ∧
      ∀ v ∈ returnsOf (DAL.run (DAL.RemoteBitService.new rxHandle txHandle) cs).2, v ≤ 20) := by
  constructor
  · intro hcs
    exact (CODAL.codal_run_inv cs (CODAL.RemoteBitService.new chars) hcs
      (by simp [Sized, CODAL.RemoteBitService.new]) (Nat.zero_le _)).2
  · intro hcs
    exact (DAL.dal_run_inv cs (DAL.RemoteBitService.new rxHandle txHandle) hcs
      (by simp [Sized, DAL.RemoteBitService.new]) (Nat.zero_le _)).2

/-- C5 amended, on a run that starts with 21 bytes written to another handle,
then delivers 20 bytes to the RX handle, reads them, delivers 3 bytes and
writes one. -/
theorem C5_count_bounded_within_declared_witness :
    (WithinDeclared (CODAL.valueHandle (CODAL.RemoteBitService.new [7, 8]) CODAL.mbbs_cIdxRX)
        [Call.onDataWritten 9 (List.replicate 21 1) 21, Call.onDataWritten 7 (List.replicate 20 1) 20,
        Call.read (List.replicate 20 0), Call.onDataWritten 7 [1, 2, 3] 3, Call.write true [5] 1] ∧
      WithinDeclared 7
        [Call.onDataWritten 9 (List.replicate 21 1) 21, Call.onDataWritten 7 (List.replicate 20 1) 20,
        Call.read (List.replicate 20 0), Call.onDataWritten 7 [1, 2, 3] 3, Call.write true [5] 1]) ∧
    ((CODAL.run (CODAL.RemoteBitService.new [7, 8])
        [Call.onDataWritten 9 (List.replicate 21 1) 21, Call.onDataWritten 7 (List.replicate 20 1) 20,
        Call.read (List.replicate 20 0), Call.onDataWritten 7 [1, 2, 3] 3, Call.write true [5] 1]).1.receivedBytes ≤ 20 ∧
      ∀ v ∈ returnsOf (CODAL.run (CODAL.RemoteBitService.new [7, 8])
        [Call.onDataWritten 9 (List.replicate 21 1) 21, Call.onDataWritten 7 (List.replicate 20 1) 20,
        Call.read (List.replicate 20 0), Call.onDataWritten 7 [1, 2, 3] 3, Call.write true [5] 1]).2, v ≤ 20) ∧
    ((DAL.run (DAL.RemoteBitService.new 7 8)
        [Call.onDataWritten 9 (List.replicate 21 1) 21, Call.onDataWritten 7 (List.replicate 20 1) 20,
        Call.read (List.replicate 20 0), Call.onDataWritten 7 [1, 2, 3] 3, Call.write true [5] 1]).1.receivedBytes ≤ 20 ∧
      ∀ v ∈ returnsOf (DAL.run (DAL.RemoteBitService.new 7 8)
        [Call.onDataWritten 9 (List.replicate 21 1) 21, Call.onDataWritten 7 (List.replicate 20 1) 20,
        Call.read (List.replicate 20 0), Call.onDataWritten 7 [1, 2, 3] 3, Call.write true [5] 1]).2, v ≤ 20) :=
  have h := C5_count_bounded_within_declared
    [Call.onDataWritten 9 (List.replicate 21 1) 21, Call.onDataWritten 7 (List.replicate 20 1) 20,
        Call.read (List.replicate 20 0), Call.onDataWritten 7 [1, 2, 3] 3, Call.write true [5] 1] [7, 8] 7 8
  ⟨by decide, h.1 (by decide), h.2 (by decide)⟩

/-- C6: `onDataWritten` with `len == 0` is a no-op, whatever the handle: no event
is raised and the state (`rxBuffer`, `txBuffer`, `receivedBytes`) is returned as
it was; on a channel with no message pending the `read` that follows returns
`0` and copies nothing.  Both variants. -/
theorem C6_empty_delivery_is_noop (c : CODAL.RemoteBitService) (d : DAL.RemoteBitService)
    (handle : Nat) (data dest : List Nat) :
    (CODAL.onDataWritten c { handle := handle, data := data, len := 0 } = (c, []) ∧
      DAL.onDataWritten d { handle := handle, data := data, len := 0 } = (d, [])) ∧
    (c.receivedBytes = 0 →
      (CODAL.read (CODAL.onDataWritten c { handle := handle, data := data, len := 0 }).1 dest).2 =
        (dest, 0)) ∧
    (d.receivedBytes = 0 →
      (DAL.read (DAL.onDataWritten d { handle := handle, data := data, len := 0 }).1 dest).2 =
        (dest, 0)) := by
  have e1 : CODAL.onDataWritten c { handle := handle, data := data, len := 0 } = (c, []) := by
    simp [CODAL.onDataWritten]
  have e2 : DAL.onDataWritten d { handle := handle, data := data, len := 0 } = (d, []) := by
    simp [DAL.onDataWritten]
  refine ⟨⟨e1, e2⟩, ?_, ?_⟩
  · intro h
    rw [e1]
    simp [CODAL.read, h, memcpy_zero]
  · intro h
    rw [e2]
    simp [DAL.read, h, memcpy_zero]

/-- C6 at the fresh channels, with an empty write to the RX handle. -/
theorem C6_empty_delivery_is_noop_witness :
    ((CODAL.RemoteBitService.new [7, 8]).receivedBytes = 0 ∧
      (DAL.RemoteBitService.new 7 8).receivedBytes = 0) ∧
    (CODAL.read (CODAL.onDataWritten (CODAL.RemoteBitService.new [7, 8])
        { handle := 7, data := [1, 2], len := 0 }).1 [4, 5]).2 = ([4, 5], 0) ∧
    (DAL.read (DAL.onDataWritten (DAL.RemoteBitService.new 7 8)
        { handle := 7, data := [1, 2], len := 0 }).1 [4, 5]).2 = ([4, 5], 0) :=
  have h := C6_empty_delivery_is_noop (CODAL.RemoteBitService.new [7, 8])
    (DAL.RemoteBitService.new 7 8) 7 [1, 2] [4, 5]
  ⟨by decide, h.2.1 (by decide), h.2.2 (by decide)⟩

/-- C7, as the claim has it, fails: on the channel that a delivery of 21 bytes
`1` to the RX characteristic of the fresh channel leaves, the buffers have their
declared size and the pending count is 21; `read` returns 21 and writes 21
bytes into a destination of 21 zeros, the last of them taken from `txBuffer`,
so the destination is not the first `k` bytes of `rxBuffer` followed by its own
rest.  Both variants. -/
theorem C7_read_past_buffer_counterexample :
    (Sized (CODAL.onDataWritten (CODAL.RemoteBitService.new [7, 8])
          { handle := 7, data := List.replicate 21 1, len := 21 }).1.rxBuffer
        (CODAL.onDataWritten (CODAL.RemoteBitService.new [7, 8])
          { handle := 7, data := List.replicate 21 1, len := 21 }).1.txBuffer ∧
      (CODAL.onDataWritten (CODAL.RemoteBitService.new [7, 8])
          { handle := 7, data := List.replicate 21 1, len := 21 }).1.receivedBytes = 21 ∧
      (CODAL.read (CODAL.onDataWritten (CODAL.RemoteBitService.new [7, 8])
          { handle := 7, data := List.replicate 21 1, len := 21 }).1
          (List.replicate 21 0)).2 = (List.replicate 21 1, 21) ∧
      (CODAL.onDataWritten (CODAL.RemoteBitService.new [7, 8])
          { handle := 7, data := List.replicate 21 1, len := 21 }).1.txBuffer.head? = some 1 ∧
      ¬ (CODAL.read (CODAL.onDataWritten (CODAL.RemoteBitService.new [7, 8])
          { handle := 7, data := List.replicate 21 1, len := 21 }).1
          (List.replicate 21 0)).2.1 =
        (CODAL.onDataWritten (CODAL.RemoteBitService.new [7, 8])
          { handle := 7, data := List.replicate 21 1, len := 21 }).1.rxBuffer.take 21 ++
          (List.replicate 21 0).drop 21) ∧
    (Sized (DAL.onDataWritten (DAL.RemoteBitService.new 7 8)
          { handle := 7, data := List.replicate 21 1, len := 21 }).1.rxBuffer
        (DAL.onDataWritten (DAL.RemoteBitService.new 7 8)
          { handle := 7, data := List.replicate 21 1, len := 21 }).1.txBuffer ∧
      (DAL.onDataWritten (DAL.RemoteBitService.new 7 8)
          { handle := 7, data := List.replicate 21 1, len := 21 }).1.receivedBytes = 21 ∧
      (DAL.read (DAL.onDataWritten (DAL.RemoteBitService.new 7 8)
          { handle := 7, data := List.replicate 21 1, len := 21 }).1
          (List.replicate 21 0)).2 = (List.replicate 21 1, 21) ∧
      (DAL.onDataWritten (DAL.RemoteBitService.new 7 8)
          { handle := 7, data := List.replicate 21 1, len := 21 }).1.txBuffer.head? = some 1 ∧
      ¬ (DAL.read (DAL.onDataWritten (DAL.RemoteBitService.new 7 8)
          { handle := 7, data := List.replicate 21 1, len := 21 }).1
          (List.replicate 21 0)).2.1 =
        (DAL.onDataWritten (DAL.RemoteBitService.new 7 8)
          { handle := 7, data := List.replicate 21 1, len := 21 }).1.rxBuffer.take 21 ++
          (List.replicate 21 0).drop 21) := by
  decide

/-- C7, amended: `read` drains.  For every channel state with pending count `k`
it returns `k` and sets the count to `0`, leaving both buffers as they were;
when `k <= 20`, the size of `rxBuffer`, and the destination has at least `k`
bytes, the destination then holds the first `k` bytes of `rxBuffer` followed by
its own bytes from position `k` on; with nothing pending it returns `0` and
leaves the destination as it was; a `read` right after a `read` returns `0`.
Both variants. -/
theorem C7_read_drains (c : CODAL.RemoteBitService) (d : DAL.RemoteBitService)
    (dest dest2 : List Nat) :
    ((CODAL.read c dest).2.2 = c.receivedBytes ∧
      (CODAL.read c dest).1 = { c with receivedBytes := 0 } ∧
      (Sized c.rxBuffer c.txBuffer → c.receivedBytes ≤ 20 → c.receivedBytes ≤ dest.length →
        (CODAL.read c dest).2.1 =
          c.rxBuffer.take c.receivedBytes ++ dest.drop c.receivedBytes) ∧
      (c.receivedBytes = 0 → (CODAL.read c dest).2 = (dest, 0)) ∧
      (CODAL.read (CODAL.read c dest).1 dest2).2 = (dest2, 0)) ∧
    ((DAL.read d dest).2.2 = d.receivedBytes ∧
      (DAL.read d dest).1 = { d with receivedBytes := 0 } ∧
      (Sized d.rxBuffer d.txBuffer → d.receivedBytes ≤ 20 → d.receivedBytes ≤ dest.length →
        (DAL.read d dest).2.1 =
          d.rxBuffer.take d.receivedBytes ++ dest.drop d.receivedBytes) ∧
      (d.receivedBytes = 0 → (DAL.read d dest).2 = (dest, 0)) ∧
      (DAL.read (DAL.read d dest).1 dest2).2 = (dest2, 0)) := by
  refine ⟨⟨rfl, rfl, ?_, ?_, CODAL.codal_read_twice _ _ _⟩, ⟨rfl, rfl, ?_, ?_, DAL.dal_read_twice _ _ _⟩⟩
  · intro hs hk hd
    rw [CODAL.codal_read_within c dest hs hk hd]
  · intro h
    simp [CODAL.read, h, memcpy_zero]
  · intro hs hk hd
    rw [DAL.dal_read_within d dest hs hk hd]
  · intro h
    simp [DAL.read, h, memcpy_zero]

/-- C7 on the channels that hold the pending message `[1, 2, 3]`. -/
theorem C7_read_drains_witness :
    (Sized (CODAL.onDataWritten (CODAL.RemoteBitService.new [7, 8])
        { handle := 7, data := [1, 2, 3], len := 3 }).1.rxBuffer
        (CODAL.onDataWritten (CODAL.RemoteBitService.new [7, 8])
        { handle := 7, data := [1, 2, 3], len := 3 }).1.txBuffer ∧
      (CODAL.onDataWritten (CODAL.RemoteBitService.new [7, 8])
        { handle := 7, data := [1, 2, 3], len := 3 }).1.receivedBytes ≤ 20 ∧
      (CODAL.onDataWritten (CODAL.RemoteBitService.new [7, 8])
        { handle := 7, data := [1, 2, 3], len := 3 }).1.receivedBytes ≤ [9, 9, 9, 9, 9].length) ∧
    (CODAL.read (CODAL.onDataWritten (CODAL.RemoteBitService.new [7, 8])
        { handle := 7, data := [1, 2, 3], len := 3 }).1
        [9, 9, 9, 9, 9]).2.1 = [1, 2, 3, 9, 9] ∧
    (DAL.read (DAL.onDataWritten (DAL.RemoteBitService.new 7 8)
        { handle := 7, data := [1, 2, 3], len := 3 }).1
        [9, 9, 9, 9, 9]).2.1 = [1, 2, 3, 9, 9] :=
  have h := C7_read_drains
    (CODAL.onDataWritten (CODAL.RemoteBitService.new [7, 8])
        { handle := 7, data := [1, 2, 3], len := 3 }).1
    (DAL.onDataWritten (DAL.RemoteBitService.new 7 8)
        { handle := 7, data := [1, 2, 3], len := 3 }).1
    [9, 9, 9, 9, 9] []
  ⟨by decide, h.1.2.2.1 (by decide) (by decide) (by decide),
    h.2.2.2.1 (by decide) (by decide) (by decide)⟩

/-- C8: exactly one event per accepted inbound write.  `onDataWritten` raises
exactly one event, source 2300 and value 60, when the handle written is the
value handle of the RX characteristic and `len > 0`; otherwise it raises none
and returns the state as it was.  `read` and `write` raise none.  Over every
sequence of calls the events raised are as many as the accepted inbound writes,
each of them that event.  Both variants. -/
theorem C8_one_event_per_accepted_write (c : CODAL.RemoteBitService) (d : DAL.RemoteBitService)
    (handle len : Nat) (data dest : List Nat) (connected : Bool) (cs : List Call) :
    ((handle = CODAL.valueHandle c CODAL.mbbs_cIdxRX ∧ len > 0 →
        (CODAL.onDataWritten c { handle := handle, data := data, len := len }).2 =
          [{ source := 2300, value := 60 }]) ∧
      (¬ (handle = CODAL.valueHandle c CODAL.mbbs_cIdxRX ∧ len > 0) →
        CODAL.onDataWritten c { handle := handle, data := data, len := len } = (c, [])) ∧
      (CODAL.step c (Call.read dest)).2.events = [] ∧
      (CODAL.step c (Call.write connected data len)).2.events = [] ∧
      eventsOf (CODAL.run c cs).2 =
        List.replicate (CODAL.acceptedCount c cs) { source := 2300, value := 60 } ∧
      (eventsOf (CODAL.run c cs).2).length = CODAL.acceptedCount c cs) ∧
    ((handle = d.rxCharacteristicHandle ∧ len > 0 →
        (DAL.onDataWritten d { handle := handle, data := data, len := len }).2 =
          [{ source := 2300, value := 60 }]) ∧
      (¬ (handle = d.rxCharacteristicHandle ∧ len > 0) →
        DAL.onDataWritten d { handle := handle, data := data, len := len } = (d, [])) ∧
      (DAL.step d (Call.read dest)).2.events = [] ∧
      (DAL.step d (Call.write connected data len)).2.events = [] ∧
      eventsOf (DAL.run d cs).2 =
        List.replicate (DAL.acceptedCount d cs) { source := 2300, value := 60 } ∧
      (eventsOf (DAL.run d cs).2).length = DAL.acceptedCount d cs) := by
  refine ⟨⟨?_, ?_, rfl, rfl, CODAL.codal_run_events cs c, ?_⟩, ⟨?_, ?_, rfl, rfl, DAL.dal_run_events cs d, ?_⟩⟩
  · intro h
    simp only [CODAL.onDataWritten, if_pos h]
  · intro h
    simp only [CODAL.onDataWritten, if_neg h]
  · rw [CODAL.codal_run_events cs c, List.length_replicate]
  · intro h
    simp only [DAL.onDataWritten, if_pos h]
  · intro h
    simp only [DAL.onDataWritten, if_neg h]
  · rw [DAL.dal_run_events cs d, List.length_replicate]

/-- C8 at the fresh channels: one byte written to the RX handle raises the
event, one byte written to another handle raises none. -/
theorem C8_one_event_per_accepted_write_witness :
    ((7 = CODAL.valueHandle (CODAL.RemoteBitService.new [7, 8]) CODAL.mbbs_cIdxRX ∧ 1 > 0) ∧
      ¬ (9 = (DAL.RemoteBitService.new 7 8).rxCharacteristicHandle ∧ 1 > 0)) ∧
    (CODAL.onDataWritten (CODAL.RemoteBitService.new [7, 8])
        { handle := 7, data := [5], len := 1 }).2 = [{ source := 2300, value := 60 }] ∧
    DAL.onDataWritten (DAL.RemoteBitService.new 7 8) { handle := 9, data := [5], len := 1 } =
      (DAL.RemoteBitService.new 7 8, []) :=
  ⟨by decide,
    (C8_one_event_per_accepted_write (CODAL.RemoteBitService.new [7, 8])
      (DAL.RemoteBitService.new 7 8) 7 1 [5] [] true []).1.1 (by decide),
    (C8_one_event_per_accepted_write (CODAL.RemoteBitService.new [7, 8])
      (DAL.RemoteBitService.new 7 8) 9 1 [5] [] true []).2.2.1 (by decide)⟩

/-- C9: the two build variants behave alike.  On channels with the same buffers,
the same count and the same RX value handle, `write`, `read` and
`onDataWritten` of the two variants, given the same connection status and the
same input, leave the same buffers and count, return the same value and the
same destination, request notifications of the same length and payload and
raise the same events; so does every sequence of calls. -/
theorem C9_variants_agree (c : CODAL.RemoteBitService) (d : DAL.RemoteBitService)
    (h : SameChannel c d) (connected : Bool) (data dest : List Nat) (handle len : Nat)
    (cs : List Call) :
    (SameChannel (CODAL.write c connected data len).1 (DAL.write d connected data len).1 ∧
      payloads (CODAL.write c connected data len).2 =
        payloads (DAL.write d connected data len).2) ∧
    (SameChannel (CODAL.read c dest).1 (DAL.read d dest).1 ∧
      (CODAL.read c dest).2 = (DAL.read d dest).2) ∧
    (SameChannel (CODAL.onDataWritten c { handle := handle, data := data, len := len }).1
        (DAL.onDataWritten d { handle := handle, data := data, len := len }).1 ∧
      (CODAL.onDataWritten c { handle := handle, data := data, len := len }).2 =
        (DAL.onDataWritten d { handle := handle, data := data, len := len }).2) ∧
    (SameChannel (CODAL.run c cs).1 (DAL.run d cs).1 ∧
      (CODAL.run c cs).2.map observable = (DAL.run d cs).2.map observable) := by
  have hw := step_same c d (Call.write connected data len) h
  have hr := step_same c d (Call.read dest) h
  have ho := step_same c d (Call.onDataWritten handle data len) h
  simp only [CODAL.step, DAL.step, observable, Prod.mk.injEq] at hw hr ho
  refine ⟨⟨hw.1, hw.2.1⟩, ⟨hr.1, ?_⟩, ⟨ho.1, ho.2.2.1⟩, run_same cs c d h⟩
  exact Prod.ext hr.2.2.2.2 (Option.some.inj hr.2.2.2.1)

/-- C9 on the two fresh channels with the same handles, for a run that
delivers three bytes, reads them and writes two. -/
theorem C9_variants_agree_witness :
    SameChannel (CODAL.RemoteBitService.new [7, 8]) (DAL.RemoteBitService.new 7 8) ∧
    (CODAL.run (CODAL.RemoteBitService.new [7, 8])
        [Call.onDataWritten 7 [1, 2, 3] 3, Call.read [0, 0, 0, 0], Call.write true [5, 6] 2]).2.map
        observable =
      (DAL.run (DAL.RemoteBitService.new 7 8)
        [Call.onDataWritten 7 [1, 2, 3] 3, Call.read [0, 0, 0, 0], Call.write true [5, 6] 2]).2.map
        observable :=
  ⟨by decide,
    (C9_variants_agree (CODAL.RemoteBitService.new [7, 8]) (DAL.RemoteBitService.new 7 8)
      (by decide) true [] [] 0 0
      [Call.onDataWritten 7 [1, 2, 3] 3, Call.read [0, 0, 0, 0], Call.write true [5, 6] 2]).2.2.2.2⟩

/-- C10: both variants address the same three identifiers.  The short code
written big-endian into bytes 2 and 3 of the 16-byte base gives, for
`service_base_uuid` with `0xa0c0`, `RemoteBitServiceUUID`, and for
`char_base_uuid` with `0xbcc1` and `0xbcc2`, `RemoteBitRxCharacteristicUUID` and
`RemoteBitTxCharacteristicUUID`; the two characteristic identifiers differ, and
with bytes 2 and 3 cleared both are the one base `char_base_uuid`. -/
theorem C10_identifiers_agree :
    (CODAL.serviceUUID = 0xa0c0 ∧ CODAL.charUUID.getD CODAL.mbbs_cIdxRX 0 = 0xbcc1 ∧
      CODAL.charUUID.getD CODAL.mbbs_cIdxTX 0 = 0xbcc2) ∧
    withShortCode CODAL.service_base_uuid CODAL.serviceUUID = DAL.RemoteBitServiceUUID ∧
    withShortCode CODAL.char_base_uuid (CODAL.charUUID.getD CODAL.mbbs_cIdxRX 0) =
      DAL.RemoteBitRxCharacteristicUUID ∧
    withShortCode CODAL.char_base_uuid (CODAL.charUUID.getD CODAL.mbbs_cIdxTX 0) =
      DAL.RemoteBitTxCharacteristicUUID ∧
    withShortCode DAL.RemoteBitRxCharacteristicUUID 0 = CODAL.char_base_uuid ∧
    withShortCode DAL.RemoteBitTxCharacteristicUUID 0 = CODAL.char_base_uuid ∧
    DAL.RemoteBitRxCharacteristicUUID ≠ DAL.RemoteBitTxCharacteristicUUID := by
  decide

end RemoteBit
